import Mathlib

/-!
Shallow embedding of the core of the ai-resume-autopilot backend
(`backend/services/resume_parser.py` and `backend/services/ai_service.py`).

Pure string heuristics are translated directly.  External effects (LLM HTTP
calls, PDF/DOCX readers, Python float parsing) are passed in as explicit
oracle functions, so every definition here is total and executable; a
function that in Python catches all exceptions and returns a string is
modelled as a total Lean function returning a `String`.
-/

set_option maxHeartbeats 1000000

namespace Autopilot

/-- The whitespace class used by Python `str.split()` / `str.strip()` and by
the regex class backslash-s (space, tab, newline, carriage return, vertical
tab, form feed). -/
def isPyWs (c : Char) : Bool :=
  c = ' ' || c = '\t' || c = '\n' || c = '\r' || c = '\x0b' || c = '\x0c'

/-- Model of Python `str.lower()` (ASCII case folding). -/
def lowerS (s : String) : String := ⟨s.data.map Char.toLower⟩

/-- `occursIn needle hay` models Python `needle in hay`: `needle` occurs as a
contiguous substring of `hay` (the empty string occurs in everything). -/
def occursIn (needle : List Char) : List Char → Bool
  | [] => needle.isEmpty
  | c :: t => needle.isPrefixOf (c :: t) || occursIn needle t

/-- Python `needle in hay` on `String`s. -/
def pyIn (needle hay : String) : Bool := occursIn needle.data hay.data

/-- Accumulator-based splitter behind `splitWs` (Python `str.split()` with no
argument: split on runs of whitespace, dropping empty pieces). -/
def splitWsAux : List Char → List Char → List (List Char)
  | [], acc => if acc.isEmpty then [] else [acc.reverse]
  | c :: cs, acc =>
    if isPyWs c then
      if acc.isEmpty then splitWsAux cs [] else acc.reverse :: splitWsAux cs []
    else splitWsAux cs (c :: acc)

/-- Python `text.split()`: maximal whitespace-free runs of `l`. -/
def splitWs (l : List Char) : List (List Char) := splitWsAux l []

/-- Number of words of a string in the sense of Python `len(s.split())`. -/
def wordCount (s : String) : Nat := (splitWs s.data).length

/-- Python `' '.join` on raw character lists. -/
def joinSp : List (List Char) → List Char
  | [] => []
  | [w] => w
  | w :: ws => w ++ ' ' :: joinSp ws

/-- Python `sep.join` on raw character lists. -/
def joinSepL (sep : List Char) : List (List Char) → List Char
  | [] => []
  | [w] => w
  | w :: ws => w ++ sep ++ joinSepL sep ws

/-- Python `', '.join(ws)`. -/
def joinCommaSp (ws : List String) : String := ⟨joinSepL ", ".data (ws.map String.data)⟩

/-- Python `str.strip()` on a character list. -/
def pyStripL (l : List Char) : List Char :=
  ((l.dropWhile isPyWs).reverse.dropWhile isPyWs).reverse

/-- Python `str.strip()`. -/
def pyStrip (s : String) : String := ⟨pyStripL s.data⟩

/-- Python `str.split(sep)` / `re.split` on single-character alternatives:
split at every character satisfying `p`, keeping empty pieces.  The result is
always non-empty. -/
def splitOnPred (p : Char → Bool) : List Char → List (List Char)
  | [] => [[]]
  | c :: cs =>
    if p c then [] :: splitOnPred p cs
    else
      match splitOnPred p cs with
      | [] => [[c]]
      | a :: r => (c :: a) :: r

/-- Python `s.startswith(pre)`. -/
def strStartsWith (s pre : String) : Bool := pre.data.isPrefixOf s.data

/-- Helper for `pyTitle`: the boolean records whether the previous character
was alphabetic (Python "cased"). -/
def pyTitleAux : Bool → List Char → List Char
  | _, [] => []
  | prevAlpha, c :: cs =>
    (if c.isAlpha then (if prevAlpha then c.toLower else c.toUpper) else c) ::
      pyTitleAux c.isAlpha cs

/-- Model of Python `str.title()` (ASCII): uppercase every letter that follows
a non-letter, lowercase the rest. -/
def pyTitle (s : String) : String := ⟨pyTitleAux false s.data⟩

/-! ### Existence semantics of the regular expressions used by the parser

`bool(re.search(pat, text))` is `true` iff some suffix of `text` has a prefix
matching `pat`.  The combinators below compute exactly that existence, taking
the disjunction over all backtracking alternatives. -/

/-- Match one character satisfying `p`, then continue with `k`. -/
def matchChar (p : Char → Bool) (k : List Char → Bool) : List Char → Bool
  | [] => false
  | c :: cs => p c && k cs

/-- Regex `x?`: match `p` zero or one time, then continue with `k`. -/
def optChar (p : Char → Bool) (k : List Char → Bool) (l : List Char) : Bool :=
  k l || matchChar p k l

/-- Regex `x+`: match `p` one or more times, then continue with `k`. -/
def plusThen (p : Char → Bool) (k : List Char → Bool) : List Char → Bool
  | [] => false
  | c :: cs => p c && (k cs || plusThen p k cs)

/-- Regex `x{n}`: match exactly `n` characters satisfying `p`, then `k`. -/
def repChar : Nat → (Char → Bool) → (List Char → Bool) → List Char → Bool
  | 0, _, k, l => k l
  | _ + 1, _, _, [] => false
  | n + 1, p, k, c :: cs => p c && repChar n p k cs

/-- `searchAny f l` is true iff `f` accepts some suffix of `l`
(the existence semantics of `re.search`). -/
def searchAny (f : List Char → Bool) : List Char → Bool
  | [] => f []
  | c :: cs => f (c :: cs) || searchAny f cs

/-- Character class of the local part of the email regex in
`calculate_ats_score`. -/
def emailLocalClass (c : Char) : Bool :=
  c.isAlpha || c.isDigit || c = '.' || c = '_' || c = '%' || c = '+' || c = '-'

/-- Character class of the domain part of the email regex. -/
def emailDomClass (c : Char) : Bool :=
  c.isAlpha || c.isDigit || c = '.' || c = '-'

/-- A prefix of the given character list matches the email pattern of
`calculate_ats_score`. -/
def emailAt (l : List Char) : Bool :=
  plusThen emailLocalClass (matchChar (fun c => c = '@')
    (plusThen emailDomClass (matchChar (fun c => c = '.')
      (matchChar Char.isAlpha (matchChar Char.isAlpha (fun _ => true)))))) l

/-- `bool(re.search(email_pattern, text))` in `calculate_ats_score`. -/
def hasEmail (text : String) : Bool := searchAny emailAt text.data

/-- Separator class of the phone regex. -/
def sepClass (c : Char) : Bool := isPyWs c || c = '.' || c = '-'

/-- The part of the phone regex after the optional country code group. -/
def phoneCore : List Char → Bool :=
  optChar (fun c => c = '(') (repChar 3 Char.isDigit (optChar (fun c => c = ')')
    (optChar sepClass (repChar 3 Char.isDigit (optChar sepClass
      (repChar 4 Char.isDigit (fun _ => true)))))))

/-- A prefix of the given character list matches the phone pattern of
`calculate_ats_score` (optional plus and 1-2 digit country code with
optional space, then the core pattern). -/
def phoneAt (l : List Char) : Bool :=
  phoneCore l ||
    matchChar (fun c => c = '+') (matchChar Char.isDigit
      (optChar Char.isDigit (optChar isPyWs phoneCore))) l

/-- `bool(re.search(phone_pattern, text))` in `calculate_ats_score`. -/
def hasPhone (text : String) : Bool := searchAny phoneAt text.data

/-! ### The skills-heading regex of `extract_skills`

`re.search(r'skills?[:\-]?\s*([^\n]+)', text, re.IGNORECASE)` with its
captured group.  The model mirrors the backtracking order of the Python
engine (leftmost match; greedy optional `s`, optional colon/dash and
whitespace run, backtracking when the mandatory `[^\n]+` would otherwise
fail), so it returns exactly the capture `re.search` would return. -/

/-- Case-insensitively consume the pattern characters (given lowercase) from
the front of the input, returning the rest on success. -/
def ciConsume : List Char → List Char → Option (List Char)
  | [], l => some l
  | _ :: _, [] => none
  | p :: ps, c :: cs => if c.toLower = p then ciConsume ps cs else none

/-- Match `\s*([^\n]+)` and return the captured group, preferring the longest
whitespace run (greedy), backtracking into the whitespace when everything
after it is newlines. -/
def wsCapture : List Char → Option (List Char)
  | [] => none
  | c :: cs =>
    if isPyWs c then
      match wsCapture cs with
      | some cap => some cap
      | none =>
        if c = '\n' then none else some (c :: cs.takeWhile (fun x => x ≠ '\n'))
    else some (c :: cs.takeWhile (fun x => x ≠ '\n'))

/-- Match `[:\-]?\s*([^\n]+)` (greedy optional colon/dash first). -/
def contColon (r : List Char) : Option (List Char) :=
  match r with
  | c :: r1 =>
    if c = ':' || c = '-' then (wsCapture r1).orElse (fun _ => wsCapture r)
    else wsCapture r
  | [] => none

/-- Match `s?[:\-]?\s*([^\n]+)` (greedy optional `s` first). -/
def afterSkill (r : List Char) : Option (List Char) :=
  match r with
  | c :: r1 =>
    if c.toLower = 's' then (contColon r1).orElse (fun _ => contColon r)
    else contColon r
  | [] => none

/-- Try the whole heading pattern at the front of the input. -/
def matchSkillsAt (l : List Char) : Option (List Char) :=
  match ciConsume "skill".data l with
  | none => none
  | some r => afterSkill r

/-- Leftmost match of the heading pattern anywhere in the text, returning the
captured group. -/
def findSkillsCapture : List Char → Option (List Char)
  | [] => none
  | c :: cs =>
    match matchSkillsAt (c :: cs) with
    | some cap => some cap
    | none => findSkillsCapture cs

/-- The heading-derived part of `extract_skills`: capture of the
`skills?[:\-]?\s*([^\n]+)` search, split on comma/pipe/bullet/dash/newline,
each piece stripped, kept when longer than 2 characters. -/
def headingSkills (text : String) : List String :=
  match findSkillsCapture text.data with
  | none => []
  | some cap =>
    ((splitOnPred (fun c => c = ',' || c = '|' || c = '•' || c = '-' || c = '\n') cap).map
        pyStripL).filterMap
      (fun w => if 2 < w.length then some (⟨w⟩ : String) else none)

/-! ### `ResumeParser` (`backend/services/resume_parser.py`) -/

/-- The fixed skill vocabulary `ResumeParser.skills_keywords`. -/
def skills_keywords : List String :=
  ["python", "java", "javascript", "react", "node.js", "sql", "mongodb",
   "postgresql", "aws", "docker", "kubernetes", "git", "html", "css",
   "machine learning", "data science", "pandas", "numpy", "tensorflow",
   "pytorch", "flask", "django", "fastapi", "express", "angular", "vue",
   "c++", "c#", "go", "rust", "php", "ruby", "swift", "kotlin",
   "tableau", "power bi", "excel", "r", "matlab", "scikit-learn",
   "communication", "leadership", "teamwork", "problem solving"]

/-- `ResumeParser.extract_skills`: title-cased vocabulary terms occurring in
the lowered text, together with the heading-derived tokens, deduplicated.
The Python code returns `list(set(found_skills))`, whose element order is
unspecified; the model fixes one order, and claims about it only use the
underlying set (membership / emptiness). -/
def extract_skills (text : String) : List String :=
  let textLower := lowerS text
  let vocabFound := (skills_keywords.filter (fun k => pyIn (lowerS k) textLower)).map pyTitle
  (vocabFound ++ headingSkills text).dedup

/-- The description-bearing part of an experience entry dict; absent keys
behave as `""`/`[]` via `.get(..., default)`. -/
structure ExperienceEntry where
  company : String := ""
  role : String := ""
  duration : String := ""
  description : String := ""
deriving DecidableEq

/-- A project dict (`name`, `description`, `tech`). -/
structure Project where
  name : String := ""
  description : String := ""
  tech : List String := []
deriving DecidableEq

/-- The `education` dict produced by `extract_education`. -/
structure EducationInfo where
  degree : Option String := none
  fieldOfStudy : Option String := none
  institution : Option String := none
  year : Option String := none
deriving DecidableEq

/-- The slice of `parsed_data` that `calculate_ats_score` reads: the four
section values, of which only truthiness and (for skills) length matter.
`educationTruthy` models `bool(parsed_data.get("education"))` (the education
value is a dict, truthy iff non-empty). -/
structure ParsedData where
  skills : List String := []
  educationTruthy : Bool := false
  experience : List ExperienceEntry := []
  projects : List Project := []
deriving DecidableEq

/-- The `analysis` record of `calculate_ats_score`. -/
structure AtsAnalysis where
  issues : List String
  positive_aspects : List String
  section_presence : List (String × Bool)
deriving DecidableEq

/-- The return value of `calculate_ats_score`. -/
structure AtsResult where
  score : Nat
  analysis : AtsAnalysis
deriving DecidableEq

/-- Content-length component: +10 for a word count in [400,1000], else +5. -/
def atsWordScore (wc : Nat) : Nat := if 400 ≤ wc ∧ wc ≤ 1000 then 10 else 5

/-- Contact-info component: +5 for an email match, +5 for a phone match. -/
def atsContactScore (he hp : Bool) : Nat :=
  (if he then 5 else 0) + (if hp then 5 else 0)

/-- Skills component: +20 for at least five parsed skills, +10 for one to
four, +0 for none. -/
def atsSkillsScore (n : Nat) : Nat := if 5 ≤ n then 20 else if 0 < n then 10 else 0

/-- Formatting component: +20 for more than five bullet glyphs, else +10. -/
def atsBulletScore (b : Nat) : Nat := if 5 < b then 20 else 10

/-- The `section_presence` map (insertion order of the Python dict). -/
def sectionPresence (parsed : ParsedData) : List (String × Bool) :=
  [("skills", !parsed.skills.isEmpty), ("education", parsed.educationTruthy),
   ("experience", !parsed.experience.isEmpty), ("projects", !parsed.projects.isEmpty)]

/-- Number of bullet glyphs `len(re.findall(r'[•\-\*]', text))`. -/
def bulletCount (text : String) : Nat :=
  text.data.countP (fun c => c = '•' || c = '-' || c = '*')

/-- The accumulated `score` of `calculate_ats_score`: the sum of the five
`score +=` components in source order. -/
def ats_score_value (text : String) (parsed : ParsedData) : Nat :=
  atsWordScore (wordCount text) + 10 * (sectionPresence parsed).countP (fun sb => sb.2) +
    atsContactScore (hasEmail text) (hasPhone text) + atsSkillsScore parsed.skills.length +
    atsBulletScore (bulletCount text)

/-- `ResumeParser.calculate_ats_score`: heuristic ATS score plus analysis,
with issues and positive aspects appended in source order. -/
def calculate_ats_score (text : String) (parsed : ParsedData) : AtsResult :=
  let wc := wordCount text
  let wordIssues :=
    if 400 ≤ wc ∧ wc ≤ 1000 then []
    else if wc < 400 then ["Resume might be too short"] else ["Resume might be too long"]
  let wordPos := if 400 ≤ wc ∧ wc ≤ 1000 then ["Optimal word count"] else ([] : List String)
  let secs := sectionPresence parsed
  let sectionIssues :=
    (secs.filter (fun sb => !sb.2)).map (fun sb => "Missing section: " ++ pyTitle sb.1)
  let he := hasEmail text
  let hp := hasPhone text
  let contactIssues :=
    (if he then [] else ["Missing email address"]) ++
      (if hp then [] else ["Missing phone number"])
  let sc := parsed.skills.length
  let skillsIssues :=
    if 5 ≤ sc then []
    else if 0 < sc then ["Consider adding more relevant technical skills"]
    else ["No technical skills detected"]
  let skillsPos :=
    if 5 ≤ sc then ["Good technical skills detected (" ++ toString sc ++ " found)"]
    else ([] : List String)
  let bullets := bulletCount text
  let bulletIssues :=
    if 5 < bullets then ([] : List String)
    else ["Use more bullet points for better readability"]
  let bulletPos := if 5 < bullets then ["Good use of bullet points"] else ([] : List String)
  { score := ats_score_value text parsed,
    analysis :=
      { issues := wordIssues ++ sectionIssues ++ contactIssues ++ skillsIssues ++ bulletIssues,
        positive_aspects := wordPos ++ skillsPos ++ bulletPos,
        section_presence := secs } }

/-- Result type of `extract_text`: the successful text, or one of the two
failure modes (`ValueError` for an unsupported extension, the re-raised
`Exception` for a failed read). -/
inductive ExtractResult where
  | text (contents : String)
  | unsupportedFormat (message : String)
  | extractionError (message : String)
deriving DecidableEq

/-- The part of the path after the last slash (`pathlib` name). -/
def afterLastSlash (l : List Char) : List Char :=
  (l.reverse.takeWhile (fun c => c ≠ '/')).reverse

/-- `pathlib.Path(path).suffix`: the extension including the dot, taken from
the last component; empty when the name has no interior dot. -/
def pathSuffix (path : String) : String :=
  let name := afterLastSlash path.data
  let revAfter := name.reverse.takeWhile (fun c => c ≠ '.')
  match name.reverse.dropWhile (fun c => c ≠ '.') with
  | [] => ""
  | _ :: before =>
    if before.isEmpty || revAfter.isEmpty then "" else ⟨'.' :: revAfter.reverse⟩

/-- `ResumeParser.extract_text`, with the PDF and DOCX readers passed as
oracles (`Except.error e` models the underlying library raising `e`, which
the source catches and re-raises with the fixed message). -/
def extract_text (pdfReader docxReader : String → Except String String)
    (file_path : String) : ExtractResult :=
  let file_ext := lowerS (pathSuffix file_path)
  if file_ext = ".pdf" then
    match pdfReader file_path with
    | .ok t => .text t
    | .error e => .extractionError ("Error reading PDF: " ++ e)
  else if file_ext = ".docx" || file_ext = ".doc" then
    match docxReader file_path with
    | .ok t => .text t
    | .error e => .extractionError ("Error reading DOCX: " ++ e)
  else .unsupportedFormat ("Unsupported file format: " ++ file_ext)

/-! ### `AIService` (`backend/services/ai_service.py`)

LLM calls are modelled by an oracle `llm : String → String` mapping the
prompt that `_get_llm_response` would receive to the text it returns. -/

/-- The structured resume record consumed by `customize_resume`
(`resume_data.get(...)` with its defaults). -/
structure ResumeData where
  skills : List String := []
  projects : List Project := []
  experience : List ExperienceEntry := []
  education : EducationInfo := {}
  summary : String := ""
deriving DecidableEq

/-- The structured job description consumed by `customize_resume`. -/
structure JobDescription where
  role : String := ""
  company_name : String := ""
  required_skills : List String := []
  priority_keywords : List String := []
  tools_technologies : List String := []
  role_expectations : String := ""
deriving DecidableEq

/-- `AIService._calculate_relevance_score`.  The Python
`int((matching / len(jd_skills)) * 100)` is modelled as exact floor
division. -/
def _calculate_relevance_score (resume_skills : List String)
    (resume_projects : List Project) (jd_skills jd_keywords : List String) : Nat :=
  if jd_skills.isEmpty then 50
  else
    let rsl := resume_skills.map lowerS
    let jsl := jd_skills.map lowerS
    let matching := jsl.countP (fun skill => rsl.any (fun rs => pyIn rs skill || pyIn skill rs))
    let score := matching * 100 / jd_skills.length
    let boosted :=
      if jd_keywords.isEmpty then score
      else
        score +
          min ((jd_keywords.countP (fun kw => rsl.any (fun rs => pyIn (lowerS kw) rs))) * 5) 20
    min boosted 100

/-- The relevance test of `_reorder_skills`: some lowered JD skill is a
substring of the lowered resume skill, or conversely. -/
def relevantSkill (jsl : List String) (skill : String) : Bool :=
  jsl.any (fun jd => pyIn jd (lowerS skill) || pyIn (lowerS skill) jd)

/-- `AIService._reorder_skills`: the loop accumulates a relevant list and an
other list in input order and returns their concatenation. -/
def _reorder_skills (resume_skills jd_skills : List String) : List String :=
  let jsl := jd_skills.map lowerS
  let pair := resume_skills.foldl
    (fun (acc : List String × List String) skill =>
      if relevantSkill jsl skill then (acc.1 ++ [skill], acc.2)
      else (acc.1, acc.2 ++ [skill]))
    ([], [])
  pair.1 ++ pair.2

/-- Relevance count of a project description: how many lowered JD skills
occur in the lowered description. -/
def projectRelevance (jsl : List String) (description : String) : Nat :=
  jsl.countP (fun skill => pyIn skill (lowerS description))

/-- The rewrite prompt of `_enhance_projects`. -/
def projectPrompt (description : String) (jd_skills : List String) : String :=
  "Rewrite this project description to better match job requirements. \nKeep it concise and professional. Use simple English suitable for Indian students.\n\nOriginal: " ++
    description ++ "\n\nJob-relevant skills: " ++ joinCommaSp (jd_skills.take 5) ++
    "\n\nRewritten description (2-3 sentences):"

/-- Stable insertion for a descending sort by `key` (equal keys keep their
earlier-first order), modelling Python `list.sort(key=..., reverse=True)`. -/
def insertDescBy (key : Project → Nat) (x : Project) : List Project → List Project
  | [] => [x]
  | y :: ys => if key y < key x then x :: y :: ys else y :: insertDescBy key x ys

/-- Stable descending sort by `key`. -/
def sortDescBy (key : Project → Nat) (l : List Project) : List Project :=
  l.foldl (fun acc x => insertDescBy key x acc) []

/-- `AIService._enhance_projects`: rewrite each relevant project description
through the LLM, then stably re-sort the list by the relevance of the
(possibly rewritten) descriptions, descending. -/
def _enhance_projects (llm : String → String) (projects : List Project)
    (jd_skills jd_keywords : List String) : List Project :=
  let jsl := jd_skills.map lowerS
  let enhanced := projects.map (fun p =>
    if 0 < projectRelevance jsl p.description then
      { p with description := llm (projectPrompt p.description jd_skills) }
    else p)
  sortDescBy (fun p => projectRelevance jsl p.description) enhanced

/-- The rewrite prompt of `_enhance_experience`. -/
def expPrompt (description : String) (jd_skills : List String) : String :=
  "Rewrite this experience description to highlight relevant skills for the job. \nKeep it professional and concise.\n\nOriginal: " ++
    description ++ "\n\nJob-relevant skills: " ++ joinCommaSp (jd_skills.take 5) ++
    "\n\nRewritten description (2-3 sentences):"

/-- `AIService._enhance_experience`: rewrite each experience description that
mentions some required skill; no re-sort. -/
def _enhance_experience (llm : String → String) (experience : List ExperienceEntry)
    (jd_skills jd_keywords : List String) : List ExperienceEntry :=
  let jsl := jd_skills.map lowerS
  experience.map (fun e =>
    if jsl.any (fun skill => pyIn skill (lowerS e.description)) then
      { e with description := llm (expPrompt e.description jd_skills) }
    else e)

/-- The summary-enhancement prompt used when a summary already exists. -/
def summaryPromptExisting (existing jd_role : String) (jd_skills : List String) : String :=
  "Enhance this resume summary to better match the job role. Keep it professional and concise (2-3 sentences).\n\nCurrent summary: " ++
    existing ++ "\n\nTarget role: " ++ jd_role ++ "\nKey skills needed: " ++
    joinCommaSp (jd_skills.take 5) ++ "\n\nEnhanced summary:"

/-- The from-scratch summary prompt used when no summary exists. -/
def summaryPromptNew (jd_role : String) (skills : List String)
    (expCount projCount : Nat) : String :=
  "Write a professional resume summary (2-3 sentences) for a student applying to this role.\n\nTarget role: " ++
    jd_role ++ "\nKey skills: " ++ joinCommaSp skills ++ "\nExperience: " ++
    toString expCount ++ " positions\nProjects: " ++ toString projCount ++
    " projects\n\nSummary:"

/-- `AIService._generate_summary`. -/
def _generate_summary (llm : String → String) (resume : ResumeData)
    (jd : JobDescription) : String :=
  if resume.summary = "" then
    llm (summaryPromptNew jd.role (resume.skills.take 5) resume.experience.length
      resume.projects.length)
  else llm (summaryPromptExisting resume.summary jd.role jd.required_skills)

/-- The `changes_made` record of `customize_resume`. -/
structure ChangesMade where
  skills_reordered : Bool
  projects_enhanced : Nat
  experience_enhanced : Nat
  missing_skills : List String
deriving DecidableEq

/-- The `customized_data` record of `customize_resume`. -/
structure CustomizedData where
  skills : List String
  projects : List Project
  experience : List ExperienceEntry
  education : EducationInfo
  summary : String
  missing_skills_note : List String
deriving DecidableEq

/-- The return value of `customize_resume`. -/
structure CustomizationResult where
  customized_data : CustomizedData
  changes_made : ChangesMade
  relevance_score : Nat
deriving DecidableEq

/-- `AIService.customize_resume`. -/
def customize_resume (llm : String → String) (resume_data : ResumeData)
    (job_description : JobDescription) : CustomizationResult :=
  let resume_skills := resume_data.skills
  let jd_skills := job_description.required_skills
  let jd_keywords := job_description.priority_keywords
  let relevance_score :=
    _calculate_relevance_score resume_skills resume_data.projects jd_skills jd_keywords
  let missing_skills :=
    jd_skills.filter (fun skill => !((resume_skills.map lowerS).contains (lowerS skill)))
  let enhanced_projects := _enhance_projects llm resume_data.projects jd_skills jd_keywords
  let enhanced_experience :=
    _enhance_experience llm resume_data.experience jd_skills jd_keywords
  { customized_data :=
      { skills := _reorder_skills resume_skills jd_skills,
        projects := enhanced_projects,
        experience := enhanced_experience,
        education := resume_data.education,
        summary := _generate_summary llm resume_data job_description,
        missing_skills_note := missing_skills.take 3 },
    changes_made :=
      { skills_reordered := true,
        projects_enhanced := enhanced_projects.length,
        experience_enhanced := enhanced_experience.length,
        missing_skills := missing_skills.take 5 },
    relevance_score := relevance_score }

/-- The prompt of `generate_application_answer` (with the 200-character slice
of `role_expectations` and the top-5/top-2 resume slices). -/
def appAnswerPrompt (question : String) (resume : ResumeData) (jd : JobDescription)
    (word_limit : Nat) : String :=
  "Generate a personalized answer for this application question. \nUse simple, professional English suitable for Indian students. Keep it under " ++
    toString word_limit ++ " words.\n\nQuestion: " ++ question ++ "\n\nJob Role: " ++
    jd.role ++ "\nCompany: " ++ jd.company_name ++ "\nKey Requirements: " ++
    (⟨jd.role_expectations.data.take 200⟩ : String) ++ "\n\nMy Skills: " ++
    joinCommaSp (resume.skills.take 5) ++ "\nMy Projects: " ++
    joinCommaSp ((resume.projects.take 2).map (fun p => p.name)) ++ "\n\nAnswer:"

/-- `AIService.generate_application_answer`: get the LLM answer for the
prompt, then hard-truncate to `word_limit` words with a literal ellipsis when
the answer is longer. -/
def generate_application_answer (llm : String → String) (question : String)
    (resume : ResumeData) (jd : JobDescription) (word_limit : Nat) : String :=
  let answer := llm (appAnswerPrompt question resume jd word_limit)
  let words := splitWs answer.data
  if word_limit < words.length then ⟨joinSp (words.take word_limit) ++ "...".data⟩
  else answer

/-- Outcome of one Gemini model attempt in `_get_llm_response`:
HTTP 200 with (`some`) or without (`none`) a non-empty candidate list, a
non-200 response, or a raised exception caught by the inner handler. -/
inductive GemResp where
  | httpOk (candidate : Option String)
  | httpErr (status : Nat) (body : String)
  | exn (msg : String)
deriving DecidableEq

/-- The ordered Gemini model list `models_to_try`. -/
def llmModels : List String := ["gemini-1.5-flash", "gemini-pro", "gemini-3-flash-preview"]

/-- `g.isSuccess` is true for an HTTP 200 response carrying a candidate, the
only case in which the model loop returns. -/
def GemResp.isSuccess : GemResp → Bool
  | .httpOk (some _) => true
  | _ => false

/-- The `for model_name in models_to_try` loop of `_get_llm_response`:
returns the first successful candidate text (stripped) together with the
accumulated `last_error` at that point; `none` with the final `last_error`
when every attempt fails.  A 200 response without candidates falls through
without touching `last_error`, exactly as in the source. -/
def geminiLoop (tryModel : String → GemResp) :
    List String → String → Option String × String
  | [], lastError => (none, lastError)
  | m :: ms, lastError =>
    match tryModel m with
    | .httpOk (some t) => (some (pyStrip t), lastError)
    | .httpOk none => geminiLoop tryModel ms lastError
    | .httpErr status body => geminiLoop tryModel ms (toString status ++ " - " ++ body)
    | .exn msg => geminiLoop tryModel ms msg

/-- `AIService._get_llm_response`.  `openaiResult` is `none` when no OpenAI
client is configured, `some (.ok t)` when the OpenAI call returns `t`, and
`some (.error e)` when it raises (the source catches the exception and falls
through to Gemini).  `geminiConfigured` is the truthiness of the Gemini key;
`tryModel` gives the outcome of the HTTP POST for each model name.  The
function is total: no path raises. -/
def _get_llm_response (openaiResult : Option (Except String String))
    (geminiConfigured : Bool) (tryModel : String → GemResp) : String :=
  match openaiResult with
  | some (.ok content) => pyStrip content
  | _ =>
    if geminiConfigured then
      match geminiLoop tryModel llmModels "" with
      | (some text, _) => text
      | (none, lastError) =>
        "Error from AI Provider (All models failed). Last error: " ++ lastError
    else
      "AI service not configured. Please set OPENAI_API_KEY or GEMINI_API_KEY in environment variables."

/-- The record returned by `evaluate_interview_answer`. -/
structure EvalResult where
  score : Int
  feedback : String
  strengths : List String
  weaknesses : List String
  suggestion : String
  sample_answer : String
deriving DecidableEq

/-- `line.split(":")[1]` for a line known to contain a colon (all parse sites
guard with a `startswith` check on a colon-terminated literal); returns `[]`
otherwise. -/
def colonArg (line : String) : List Char :=
  (splitOnPred (fun c => c = ':') line.data).getD 1 []

/-- The string handed to `int(float(...))` on a `Score:` line:
`line.split(":")[1].strip().split('/')[0]`. -/
def scoreArg (line : String) : String :=
  ⟨(splitOnPred (fun c => c = '/') (pyStripL (colonArg line))).getD 0 []⟩

/-- `[s.strip() for s in line.split(":")[1].split(',')]`. -/
def commaFields (line : String) : List String :=
  (splitOnPred (fun c => c = ',') (colonArg line)).map (fun w => (⟨pyStripL w⟩ : String))

/-- The line loop of `evaluate_interview_answer`.  `parseNum` models Python
`int(float(s))`: `none` when that conversion raises, in which case the
enclosing `try` aborts the whole remaining loop (`except: pass`) and the
record built so far is returned. -/
def evalLoop (parseNum : String → Option Int) :
    List String → EvalResult → EvalResult
  | [], r => r
  | line :: rest, r =>
    if strStartsWith line "Score:" then
      match parseNum (scoreArg line) with
      | some n => evalLoop parseNum rest { r with score := n }
      | none => r
    else if strStartsWith line "Strengths:" then
      evalLoop parseNum rest { r with strengths := commaFields line }
    else if strStartsWith line "Weaknesses:" then
      evalLoop parseNum rest { r with weaknesses := commaFields line }
    else if strStartsWith line "Improvement Suggestion:" then
      evalLoop parseNum rest { r with suggestion := pyStrip ⟨colonArg line⟩ }
    else evalLoop parseNum rest r

/-- `response.split('\n')` (keeping empty lines). -/
def respLines (response : String) : List String :=
  (splitOnPred (fun c => c = '\n') response.data).map (fun w => (⟨w⟩ : String))

/-- `AIService.evaluate_interview_answer`, applied to the raw LLM response
(the prompt construction does not affect the returned record).  Total by
construction: the source wraps the parsing loop in `try ... except: pass`. -/
def evaluate_interview_answer (parseNum : String → Option Int)
    (response : String) : EvalResult :=
  evalLoop parseNum (respLines response)
    { score := 0, feedback := response, strengths := [], weaknesses := [],
      suggestion := "", sample_answer := "" }

/-! ### Helper lemmas -/

theorem atsWordScore_le (wc : Nat) : atsWordScore wc ≤ 10 := by
  unfold atsWordScore; split <;> omega

theorem atsContactScore_le (he hp : Bool) : atsContactScore he hp ≤ 10 := by
  unfold atsContactScore; cases he <;> cases hp <;> simp

theorem atsSkillsScore_le (n : Nat) : atsSkillsScore n ≤ 20 := by
  unfold atsSkillsScore
  split
  · omega
  · split <;> omega

theorem atsBulletScore_le (b : Nat) : atsBulletScore b ≤ 20 := by
  unfold atsBulletScore; split <;> omega

theorem ats_score_value_le (text : String) (parsed : ParsedData) :
    ats_score_value text parsed ≤ 100 := by
  have h1 := atsWordScore_le (wordCount text)
  have h2 : (sectionPresence parsed).countP (fun sb => sb.2) ≤ 4 := by
    have h := List.countP_le_length (p := fun sb : String × Bool => sb.2)
      (l := sectionPresence parsed)
    simpa [sectionPresence] using h
  have h3 := atsContactScore_le (hasEmail text) (hasPhone text)
  have h4 := atsSkillsScore_le parsed.skills.length
  have h5 := atsBulletScore_le (bulletCount text)
  unfold ats_score_value
  omega

theorem calculate_ats_score_score (text : String) (parsed : ParsedData) :
    (calculate_ats_score text parsed).score = ats_score_value text parsed := rfl

theorem relevance_le_100 (rs : List String) (pj : List Project) (js kw : List String) :
    _calculate_relevance_score rs pj js kw ≤ 100 := by
  unfold _calculate_relevance_score
  split
  · omega
  · exact Nat.min_le_right _ _

/-! ### C1 -/

/-- C1: for every resume and every job description whose required-skills list
is empty, the relevance score computed inside `customize_resume` (via
`_calculate_relevance_score`) is exactly 50, regardless of the resume's
skills or projects and of the JD's priority keywords. -/
theorem C1_empty_jd_gives_50 (llm : String → String) (resume : ResumeData)
    (jd : JobDescription) (h : jd.required_skills = []) :
    (customize_resume llm resume jd).relevance_score = 50 := by
  simp [customize_resume, _calculate_relevance_score, h]

/-- Witness for C1 at a concrete resume and a concrete JD with no required
skills. -/
theorem C1_witness :
    (customize_resume (fun _ => "") { skills := ["Python", "Sql"] }
        { role := "Backend Intern", priority_keywords := ["api"] }).relevance_score = 50 :=
  C1_empty_jd_gives_50 _ _ _ rfl

/-! ### C2 -/

/-- C2: `calculate_ats_score` is a pure function of `(text, parsed_data)` —
in this embedding it is a mathematical function, so two evaluations at the
same input are literally equal (same score, same issues) — and its score is
always within [0, 100]: the five additive components are bounded by
10 + 40 + 10 + 20 + 20 = 100. -/
theorem C2_ats_deterministic_bounded (text : String) (parsed : ParsedData) :
    calculate_ats_score text parsed = calculate_ats_score text parsed ∧
      0 ≤ (calculate_ats_score text parsed).score ∧
      (calculate_ats_score text parsed).score ≤ 100 := by
  refine ⟨rfl, Nat.zero_le _, ?_⟩
  rw [calculate_ats_score_score]
  exact ats_score_value_le text parsed

/-! ### C3 -/

/-- C3: both user-facing scores are clamped to [0, 100]: the relevance score
ends in `min _ 100` (and is a natural number, hence non-negative), and the
ATS score's additive components sum to at most 100 (non-negative by
construction). -/
theorem C3_scores_in_range (rs : List String) (pj : List Project)
    (js kw : List String) (text : String) (parsed : ParsedData) :
    (0 ≤ _calculate_relevance_score rs pj js kw ∧
        _calculate_relevance_score rs pj js kw ≤ 100) ∧
      0 ≤ (calculate_ats_score text parsed).score ∧
      (calculate_ats_score text parsed).score ≤ 100 := by
  refine ⟨⟨Nat.zero_le _, relevance_le_100 rs pj js kw⟩, Nat.zero_le _, ?_⟩
  rw [calculate_ats_score_score]
  exact ats_score_value_le text parsed

/-! ### C5 -/

theorem reorder_foldl_eq (jsl : List String) (l : List String) :
    ∀ a b : List String,
      l.foldl
          (fun (acc : List String × List String) skill =>
            if relevantSkill jsl skill then (acc.1 ++ [skill], acc.2)
            else (acc.1, acc.2 ++ [skill]))
          (a, b) =
        (a ++ l.filter (fun s => relevantSkill jsl s),
          b ++ l.filter (fun s => !relevantSkill jsl s)) := by
  induction l with
  | nil => intro a b; simp
  | cons x xs ih =>
    intro a b
    cases h : relevantSkill jsl x with
    | true => simp [h, ih, List.filter_cons]
    | false => simp [h, ih, List.filter_cons]

/-- C5: `_reorder_skills` is a stable partition of its input: the skills that
bidirectionally substring-match some required skill come first, the rest
follow, both groups keeping the input's relative order (this is exactly the
`filter p ++ filter (not p)` characterisation), and the result is a
permutation of the input. -/
theorem C5_reorder_stable_partition (resume_skills jd_skills : List String) :
    _reorder_skills resume_skills jd_skills =
        resume_skills.filter (fun s => relevantSkill (jd_skills.map lowerS) s) ++
          resume_skills.filter (fun s => !relevantSkill (jd_skills.map lowerS) s) ∧
      (_reorder_skills resume_skills jd_skills).Perm resume_skills := by
  have h := reorder_foldl_eq (jd_skills.map lowerS) resume_skills [] []
  have heq : _reorder_skills resume_skills jd_skills =
      resume_skills.filter (fun s => relevantSkill (jd_skills.map lowerS) s) ++
        resume_skills.filter (fun s => !relevantSkill (jd_skills.map lowerS) s) := by
    unfold _reorder_skills
    dsimp only
    rw [h]
    simp
  exact ⟨heq, heq ▸ List.filter_append_perm _ resume_skills⟩

/-! ### C10 -/

theorem length_insertDescBy (key : Project → Nat) (x : Project) :
    ∀ l : List Project, (insertDescBy key x l).length = l.length + 1 := by
  intro l
  induction l with
  | nil => rfl
  | cons y ys ih =>
    simp only [insertDescBy]
    split
    · simp
    · simp [ih]

theorem foldl_insertDescBy_length (key : Project → Nat) :
    ∀ (l acc : List Project),
      (l.foldl (fun acc x => insertDescBy key x acc) acc).length =
        acc.length + l.length := by
  intro l
  induction l with
  | nil => intro acc; simp
  | cons x xs ih =>
    intro acc
    rw [List.foldl_cons, ih, length_insertDescBy, List.length_cons]
    omega

theorem length_sortDescBy (key : Project → Nat) (l : List Project) :
    (sortDescBy key l).length = l.length := by
  unfold sortDescBy
  rw [foldl_insertDescBy_length]
  simp

/-- C10: the `changes_made` record of `customize_resume` reports
`projects_enhanced` as the total number of projects of the input and
`experience_enhanced` as the total number of experience entries (each entry
is mapped to exactly one output entry whether or not its description was
rewritten, and the project re-sort preserves length), and `skills_reordered`
is the constant `true`, for every input and every LLM behaviour. -/
theorem C10_changes_made_totals (llm : String → String) (resume : ResumeData)
    (jd : JobDescription) :
    (customize_resume llm resume jd).changes_made.projects_enhanced =
        resume.projects.length ∧
      (customize_resume llm resume jd).changes_made.experience_enhanced =
        resume.experience.length ∧
      (customize_resume llm resume jd).changes_made.skills_reordered = true := by
  refine ⟨?_, ?_, rfl⟩
  · show (_enhance_projects llm resume.projects jd.required_skills
        jd.priority_keywords).length = resume.projects.length
    unfold _enhance_projects
    rw [length_sortDescBy]
    simp
  · show (_enhance_experience llm resume.experience jd.required_skills
        jd.priority_keywords).length = resume.experience.length
    unfold _enhance_experience
    simp

/-! ### C7 -/

theorem geminiLoop_allFail (tryModel : String → GemResp) :
    ∀ (ms : List String) (lastError : String),
      (∀ m ∈ ms, (tryModel m).isSuccess = false) →
      (geminiLoop tryModel ms lastError).1 = none := by
  intro ms
  induction ms with
  | nil => intro lastError _; rfl
  | cons m ms ih =>
    intro lastError h
    have hm := h m (by simp)
    unfold geminiLoop
    cases htm : tryModel m with
    | httpOk cand =>
      cases cand with
      | some t =>
        rw [htm] at hm
        simp [GemResp.isSuccess] at hm
      | none => exact ih _ (fun x hx => h x (by simp [hx]))
    | httpErr status body => exact ih _ (fun x hx => h x (by simp [hx]))
    | exn msg => exact ih _ (fun x hx => h x (by simp [hx]))

/-- C7: with neither provider credential configured, `_get_llm_response`
returns the fixed "not configured" string (and, being a total function in
this embedding of the all-catching source, raises nothing); and when the
OpenAI call fails and every Gemini model attempt fails, the gateway returns
the diagnostic string carrying the accumulated last error instead of
raising. -/
theorem C7_gateway_degrades_to_string (tryModel : String → GemResp) (e : String) :
    _get_llm_response none false tryModel =
        "AI service not configured. Please set OPENAI_API_KEY or GEMINI_API_KEY in environment variables." ∧
      ((∀ m ∈ llmModels, (tryModel m).isSuccess = false) →
        _get_llm_response (some (Except.error e)) true tryModel =
          "Error from AI Provider (All models failed). Last error: " ++
            (geminiLoop tryModel llmModels "").2) := by
  refine ⟨rfl, ?_⟩
  intro hall
  have h1 := geminiLoop_allFail tryModel llmModels "" hall
  have hbranch : _get_llm_response (some (Except.error e)) true tryModel =
      (match geminiLoop tryModel llmModels "" with
        | (some text, _) => text
        | (none, lastError) =>
          "Error from AI Provider (All models failed). Last error: " ++ lastError) := rfl
  cases hgl : geminiLoop tryModel llmModels "" with
  | mk fst snd =>
    rw [hgl] at h1
    simp only at h1
    subst h1
    rw [hbranch, hgl]

/-- Witness for C7: no credentials gives the fixed string; a 404 on every
model gives the diagnostic string ending in the last error. -/
theorem C7_witness :
    _get_llm_response none false (fun _ => GemResp.httpErr 404 "model not found") =
        "AI service not configured. Please set OPENAI_API_KEY or GEMINI_API_KEY in environment variables." ∧
      _get_llm_response (some (Except.error "boom")) true
          (fun _ => GemResp.httpErr 404 "model not found") =
        "Error from AI Provider (All models failed). Last error: 404 - model not found" := by
  have h := C7_gateway_degrades_to_string (fun _ => GemResp.httpErr 404 "model not found") "boom"
  refine ⟨h.1, ?_⟩
  rw [h.2 (fun m _ => rfl)]
  decide

/-! ### C8 -/

/-- C8: `extract_text` rejects every path whose lower-cased extension is not
one of `.pdf`, `.docx`, `.doc` with an unsupported-format failure; for the
supported extensions it dispatches to the matching reader and never reports
an unsupported format, and a failing read surfaces as an extraction error
with the reader's message. -/
theorem C8_extract_text_dispatch (pdfReader docxReader : String → Except String String)
    (file_path : String) :
    (lowerS (pathSuffix file_path) ≠ ".pdf" → lowerS (pathSuffix file_path) ≠ ".docx" →
        lowerS (pathSuffix file_path) ≠ ".doc" →
        extract_text pdfReader docxReader file_path =
          ExtractResult.unsupportedFormat
            ("Unsupported file format: " ++ lowerS (pathSuffix file_path))) ∧
      ((lowerS (pathSuffix file_path) = ".pdf" ∨ lowerS (pathSuffix file_path) = ".docx" ∨
          lowerS (pathSuffix file_path) = ".doc") →
        ∀ msg, extract_text pdfReader docxReader file_path ≠
          ExtractResult.unsupportedFormat msg) ∧
      (∀ t, lowerS (pathSuffix file_path) = ".pdf" → pdfReader file_path = Except.ok t →
        extract_text pdfReader docxReader file_path = ExtractResult.text t) ∧
      (∀ er, lowerS (pathSuffix file_path) = ".pdf" → pdfReader file_path = Except.error er →
        extract_text pdfReader docxReader file_path =
          ExtractResult.extractionError ("Error reading PDF: " ++ er)) ∧
      (∀ t, (lowerS (pathSuffix file_path) = ".docx" ∨ lowerS (pathSuffix file_path) = ".doc") →
        docxReader file_path = Except.ok t →
        extract_text pdfReader docxReader file_path = ExtractResult.text t) ∧
      (∀ er, (lowerS (pathSuffix file_path) = ".docx" ∨ lowerS (pathSuffix file_path) = ".doc") →
        docxReader file_path = Except.error er →
        extract_text pdfReader docxReader file_path =
          ExtractResult.extractionError ("Error reading DOCX: " ++ er)) := by
  refine ⟨?_, ?_, ?_, ?_, ?_, ?_⟩
  · intro h1 h2 h3
    unfold extract_text
    rw [if_neg (by simpa using h1), if_neg (by simp [h2, h3])]
  · intro hsup msg
    unfold extract_text
    rcases hsup with h | h | h
    · rw [if_pos (by simpa using h)]
      cases pdfReader file_path <;> simp
    · rw [if_neg (by simp [h]), if_pos (by simp [h])]
      cases docxReader file_path <;> simp
    · rw [if_neg (by simp [h]), if_pos (by simp [h])]
      cases docxReader file_path <;> simp
  · intro t h hok
    unfold extract_text
    rw [if_pos (by simpa using h), hok]
  · intro er h herr
    unfold extract_text
    rw [if_pos (by simpa using h), herr]
  · intro t h hok
    unfold extract_text
    rcases h with h | h
    · rw [if_neg (by simp [h]), if_pos (by simp [h]), hok]
    · rw [if_neg (by simp [h]), if_pos (by simp [h]), hok]
  · intro er h herr
    unfold extract_text
    rcases h with h | h
    · rw [if_neg (by simp [h]), if_pos (by simp [h]), herr]
    · rw [if_neg (by simp [h]), if_pos (by simp [h]), herr]

/-- Witness for C8: a `.txt` path is rejected as unsupported; an upper-cased
`.PDF` path dispatches to the PDF reader and its failure surfaces as an
extraction error. -/
theorem C8_witness :
    extract_text (fun _ => Except.error "EOF marker not found")
        (fun _ => Except.error "bad zip") "resume.txt" =
      ExtractResult.unsupportedFormat "Unsupported file format: .txt" ∧
      extract_text (fun _ => Except.error "EOF marker not found")
          (fun _ => Except.error "bad zip") "cv.PDF" =
        ExtractResult.extractionError "Error reading PDF: EOF marker not found" := by
  constructor
  · exact ((C8_extract_text_dispatch (fun _ => Except.error "EOF marker not found")
      (fun _ => Except.error "bad zip") "resume.txt").1
        (by decide) (by decide) (by decide)).trans (by decide)
  · exact ((C8_extract_text_dispatch (fun _ => Except.error "EOF marker not found")
      (fun _ => Except.error "bad zip") "cv.PDF").2.2.2.1 "EOF marker not found"
        (by decide) rfl)

/-! ### C9 -/

theorem evalLoop_feedback (parseNum : String → Option Int) :
    ∀ (lines : List String) (r : EvalResult),
      (evalLoop parseNum lines r).feedback = r.feedback := by
  intro lines
  induction lines with
  | nil => intro r; rfl
  | cons line rest ih =>
    intro r
    simp only [evalLoop]
    split
    · split
      · exact ih _
      · rfl
    · split
      · exact ih _
      · split
        · exact ih _
        · split
          · exact ih _
          · exact ih _

theorem evalLoop_score_zero (parseNum : String → Option Int) :
    ∀ (lines : List String) (r : EvalResult), r.score = 0 →
      (∀ l ∈ lines, strStartsWith l "Score:" = true → parseNum (scoreArg l) = none) →
      (evalLoop parseNum lines r).score = 0 := by
  intro lines
  induction lines with
  | nil => intro r hr _; exact hr
  | cons line rest ih =>
    intro r hr hall
    simp only [evalLoop]
    split
    · rename_i hsc
      rw [hall line (by simp) hsc]
      exact hr
    · split
      · exact ih _ hr (fun x hx => hall x (by simp [hx]))
      · split
        · exact ih _ hr (fun x hx => hall x (by simp [hx]))
        · split
          · exact ih _ hr (fun x hx => hall x (by simp [hx]))
          · exact ih _ hr (fun x hx => hall x (by simp [hx]))

theorem evalLoop_no_matches (parseNum : String → Option Int) :
    ∀ (lines : List String) (r : EvalResult),
      (∀ l ∈ lines, strStartsWith l "Score:" = false ∧ strStartsWith l "Strengths:" = false ∧
        strStartsWith l "Weaknesses:" = false ∧
        strStartsWith l "Improvement Suggestion:" = false) →
      evalLoop parseNum lines r = r := by
  intro lines
  induction lines with
  | nil => intro r _; rfl
  | cons line rest ih =>
    intro r hall
    have h := hall line (by simp)
    simp only [evalLoop, h.1, h.2.1, h.2.2.1, h.2.2.2]
    exact ih r (fun x hx => hall x (by simp [hx]))

/-- C9: `evaluate_interview_answer` is total (never raises: the model is a
plain function), the returned `feedback` field is always the raw LLM
response verbatim, parsing fails closed — if every `Score:` line's numeric
conversion fails, the score stays at its default 0 — and a response with no
recognised field lines leaves the whole record at its defaults (score 0,
empty lists, empty suggestion) with only `feedback` carrying the text. -/
theorem C9_eval_answer_fail_closed (parseNum : String → Option Int) (response : String) :
    (evaluate_interview_answer parseNum response).feedback = response ∧
      ((∀ l ∈ respLines response, strStartsWith l "Score:" = true →
          parseNum (scoreArg l) = none) →
        (evaluate_interview_answer parseNum response).score = 0) ∧
      ((∀ l ∈ respLines response, strStartsWith l "Score:" = false ∧
          strStartsWith l "Strengths:" = false ∧ strStartsWith l "Weaknesses:" = false ∧
          strStartsWith l "Improvement Suggestion:" = false) →
        evaluate_interview_answer parseNum response =
          { score := 0, feedback := response, strengths := [], weaknesses := [],
            suggestion := "", sample_answer := "" }) := by
  refine ⟨?_, ?_, ?_⟩
  · exact evalLoop_feedback parseNum (respLines response) _
  · intro hall
    exact evalLoop_score_zero parseNum (respLines response) _ rfl hall
  · intro hall
    exact evalLoop_no_matches parseNum (respLines response) _ hall

/-- Witness for C9: a response whose `Score:` line fails numeric parsing
keeps feedback verbatim and score 0; a free-text response leaves the whole
record at its defaults. -/
theorem C9_witness :
    (evaluate_interview_answer (fun _ => none)
        "Score: excellent\nStrengths: clarity").feedback = "Score: excellent\nStrengths: clarity" ∧
      (evaluate_interview_answer (fun _ => none)
          "Score: excellent\nStrengths: clarity").score = 0 ∧
      evaluate_interview_answer (fun _ => none) "great answer overall" =
        { score := 0, feedback := "great answer overall", strengths := [],
          weaknesses := [], suggestion := "", sample_answer := "" } := by
  refine ⟨(C9_eval_answer_fail_closed (fun _ => none)
      "Score: excellent\nStrengths: clarity").1,
    (C9_eval_answer_fail_closed (fun _ => none)
        "Score: excellent\nStrengths: clarity").2.1 (fun l _ _ => rfl),
    (C9_eval_answer_fail_closed (fun _ => none) "great answer overall").2.2 ?_⟩
  decide

/-! ### C4 -/

/-- Counterexample to C4 as stated: the text "skills: abc" contains no term
of the skill vocabulary as a case-insensitive substring, yet
`extract_skills` returns a non-empty result, because the heading branch of
the extractor captures the text after the `skills:` heading and keeps every
token longer than two characters regardless of the vocabulary. -/
theorem C4_counterexample :
    skills_keywords.all (fun k => !pyIn (lowerS k) (lowerS "skills: abc")) = true ∧
      extract_skills "skills: abc" ≠ [] := by decide

/-- C4 (amended): for every resume text that contains none of the known
vocabulary terms (case-insensitive substring) and whose `skills?[:-]`
heading extraction also yields no token (no match, or all captured tokens of
length at most 2 after stripping), `extract_skills` returns the empty list
and the skills component of the ATS score contributes 0 points. -/
theorem C4_no_vocab_no_heading (text : String)
    (hvocab : skills_keywords.all (fun k => !pyIn (lowerS k) (lowerS text)) = true)
    (hhead : headingSkills text = []) :
    extract_skills text = [] ∧ atsSkillsScore (extract_skills text).length = 0 := by
  have hfilter : skills_keywords.filter (fun k => pyIn (lowerS k) (lowerS text)) = [] := by
    rw [List.filter_eq_nil_iff]
    intro a ha
    have h := List.all_eq_true.mp hvocab a ha
    simpa using h
  have he : extract_skills text = [] := by
    unfold extract_skills
    dsimp only
    rw [hfilter, hhead]
    simp
  refine ⟨he, ?_⟩
  rw [he]
  rfl

/-- Witness for C4 (amended) at a concrete text with neither a vocabulary
match nor a usable skills heading. -/
theorem C4_witness :
    extract_skills "zzz qqq" = [] ∧
      atsSkillsScore (extract_skills "zzz qqq").length = 0 :=
  C4_no_vocab_no_heading "zzz qqq" (by decide) (by decide)

/-! ### C6 -/

theorem splitWsAux_append_nonws (w : List Char) (hw : ∀ c ∈ w, isPyWs c = false) :
    ∀ (l acc : List Char), splitWsAux (w ++ l) acc = splitWsAux l (w.reverse ++ acc) := by
  induction w with
  | nil => intro l acc; simp
  | cons c cs ih =>
    intro l acc
    have hc : isPyWs c = false := hw c (List.mem_cons_self c cs)
    have hcs : ∀ x ∈ cs, isPyWs x = false := fun x hx => hw x (List.mem_cons_of_mem c hx)
    rw [List.cons_append]
    show (if isPyWs c then _ else splitWsAux (cs ++ l) (c :: acc)) = _
    rw [hc]
    simp only [Bool.false_eq_true, if_false]
    rw [ih hcs l (c :: acc)]
    simp

theorem splitWs_all_nonws (w : List Char) (hne : w ≠ [])
    (hw : ∀ c ∈ w, isPyWs c = false) : splitWs w = [w] := by
  have h := splitWsAux_append_nonws w hw [] []
  rw [List.append_nil] at h
  unfold splitWs
  rw [h]
  show (if (w.reverse ++ []).isEmpty then _ else [(w.reverse ++ []).reverse]) = [w]
  rw [List.append_nil]
  rw [if_neg (by simp [hne])]
  simp

theorem splitWsAux_mem_props :
    ∀ (l acc : List Char), (∀ c ∈ acc, isPyWs c = false) →
      ∀ w ∈ splitWsAux l acc, w ≠ [] ∧ ∀ c ∈ w, isPyWs c = false := by
  intro l
  induction l with
  | nil =>
    intro acc hacc w hw
    by_cases h : acc.isEmpty
    · rw [show splitWsAux [] acc = (if acc.isEmpty then [] else [acc.reverse]) from rfl,
        if_pos h] at hw
      simp at hw
    · rw [show splitWsAux [] acc = (if acc.isEmpty then [] else [acc.reverse]) from rfl,
        if_neg h] at hw
      simp at hw
      subst hw
      constructor
      · simp [List.isEmpty_iff] at h
        simpa using h
      · intro c hc
        exact hacc c (by simpa using hc)
  | cons c cs ih =>
    intro acc hacc w hw
    rw [show splitWsAux (c :: cs) acc =
        (if isPyWs c then
          (if acc.isEmpty then splitWsAux cs [] else acc.reverse :: splitWsAux cs [])
        else splitWsAux cs (c :: acc)) from rfl] at hw
    cases hc : isPyWs c with
    | true =>
      rw [hc, if_pos rfl] at hw
      by_cases h : acc.isEmpty
      · rw [if_pos h] at hw
        exact ih [] (by simp) w hw
      · rw [if_neg h] at hw
        rcases List.mem_cons.mp hw with h1 | h1
        · subst h1
          constructor
          · simp [List.isEmpty_iff] at h
            simpa using h
          · intro x hx
            exact hacc x (by simpa using hx)
        · exact ih [] (by simp) w h1
    | false =>
      rw [hc] at hw
      simp only [Bool.false_eq_true, if_false] at hw
      refine ih (c :: acc) ?_ w hw
      intro x hx
      rcases List.mem_cons.mp hx with h1 | h1
      · subst h1; exact hc
      · exact hacc x h1

theorem splitWs_mem_props (l : List Char) :
    ∀ w ∈ splitWs l, w ≠ [] ∧ ∀ c ∈ w, isPyWs c = false :=
  splitWsAux_mem_props l [] (by simp)

theorem splitWs_joinSp_append (d : List Char) (hdne : d ≠ [])
    (hd : ∀ c ∈ d, isPyWs c = false) :
    ∀ ts : List (List Char), ts ≠ [] →
      (∀ t ∈ ts, t ≠ [] ∧ ∀ c ∈ t, isPyWs c = false) →
      (splitWs (joinSp ts ++ d)).length = ts.length := by
  intro ts
  induction ts with
  | nil => intro h; exact absurd rfl h
  | cons t ts ih =>
    intro _ hts
    have ht := hts t (by simp)
    cases ts with
    | nil =>
      have hsplit : splitWs (t ++ d) = [t ++ d] := by
        refine splitWs_all_nonws (t ++ d) (by simp [hdne]) ?_
        intro c hc
        rcases List.mem_append.mp hc with h1 | h1
        · exact ht.2 c h1
        · exact hd c h1
      rw [show joinSp [t] = t from rfl, hsplit]
      rfl
    | cons u us =>
      have hrest : ∀ x ∈ u :: us, x ≠ [] ∧ ∀ c ∈ x, isPyWs c = false :=
        fun x hx => hts x (by simp [hx])
      have hassoc : joinSp (t :: u :: us) ++ d =
          t ++ (' ' :: (joinSp (u :: us) ++ d)) := by
        rw [show joinSp (t :: u :: us) = t ++ ' ' :: joinSp (u :: us) from rfl]
        simp
      have h1 := splitWsAux_append_nonws t ht.2 (' ' :: (joinSp (u :: us) ++ d)) []
      have h2 : splitWsAux (' ' :: (joinSp (u :: us) ++ d)) (t.reverse ++ []) =
          (t.reverse ++ []).reverse :: splitWsAux (joinSp (u :: us) ++ d) [] := by
        rw [List.append_nil]
        show (if isPyWs ' ' then
            (if t.reverse.isEmpty then _ else t.reverse.reverse :: splitWsAux (joinSp (u :: us) ++ d) [])
          else _) = _
        rw [if_pos (by decide), if_neg (by simp [ht.1])]
      show (splitWsAux (joinSp (t :: u :: us) ++ d) []).length = _
      rw [hassoc, h1, h2]
      have hih := ih (by simp) hrest
      rw [show splitWs (joinSp (u :: us) ++ d) =
        splitWsAux (joinSp (u :: us) ++ d) [] from rfl] at hih
      simp [hih]

/-- Counterexample to C6 as stated: at `word_limit = 0` with a two-word LLM
response, the truncation produces the single word `"..."`, which exceeds the
word limit. -/
theorem C6_counterexample :
    ¬ (wordCount (generate_application_answer (fun _ => "a b") "q"
        ({} : ResumeData) ({} : JobDescription) 0) ≤ 0) := by decide

/-- C6 (amended): for every positive `word_limit`, every question, resume,
job description and LLM behaviour, the answer returned by
`generate_application_answer` has at most `word_limit` words, and whenever
the underlying LLM response has more than `word_limit` words the returned
string ends with a literal ellipsis. -/
theorem C6_word_limit_truncation (llm : String → String) (question : String)
    (resume : ResumeData) (jd : JobDescription) (word_limit : Nat)
    (h : 1 ≤ word_limit) :
    wordCount (generate_application_answer llm question resume jd word_limit) ≤
        word_limit ∧
      (word_limit < wordCount (llm (appAnswerPrompt question resume jd word_limit)) →
        "...".data.IsSuffix
          (generate_application_answer llm question resume jd word_limit).data) := by
  unfold generate_application_answer
  dsimp only
  by_cases hlen :
      word_limit < (splitWs (llm (appAnswerPrompt question resume jd word_limit)).data).length
  · rw [if_pos hlen]
    constructor
    · have hts :
          (splitWs (llm (appAnswerPrompt question resume jd word_limit)).data).take
            word_limit ≠ [] := by
        intro hnil
        have h0 : ((splitWs (llm (appAnswerPrompt question resume jd
            word_limit)).data).take word_limit).length = 0 := by
          rw [hnil, List.length_nil]
        rw [List.length_take] at h0
        omega
      have hprops : ∀ t ∈ (splitWs (llm (appAnswerPrompt question resume jd
          word_limit)).data).take word_limit, t ≠ [] ∧ ∀ c ∈ t, isPyWs c = false :=
        fun t htm => splitWs_mem_props _ t (List.mem_of_mem_take htm)
      have hjoin := splitWs_joinSp_append "...".data (by decide) (by decide) _ hts hprops
      show (splitWs (joinSp _ ++ "...".data)).length ≤ word_limit
      rw [hjoin, List.length_take]
      omega
    · intro _
      exact ⟨joinSp ((splitWs (llm (appAnswerPrompt question resume jd
        word_limit)).data).take word_limit), rfl⟩
  · rw [if_neg hlen]
    refine ⟨?_, ?_⟩
    · show (splitWs (llm (appAnswerPrompt question resume jd word_limit)).data).length ≤
        word_limit
      exact Nat.le_of_not_lt hlen
    · intro hcon
      exact absurd hcon hlen

/-- Witness for C6 (amended): a three-word LLM answer truncated to the
two-word limit stays within the limit and ends with the ellipsis. -/
theorem C6_witness :
    wordCount (generate_application_answer (fun _ => "one two three") "q"
        ({} : ResumeData) ({} : JobDescription) 2) ≤ 2 ∧
      "...".data.IsSuffix (generate_application_answer (fun _ => "one two three") "q"
        ({} : ResumeData) ({} : JobDescription) 2).data := by
  have h := C6_word_limit_truncation (fun _ => "one two three") "q"
    ({} : ResumeData) ({} : JobDescription) 2 (by decide)
  exact ⟨h.1, h.2 (by decide)⟩

end Autopilot
